import Mathlib

/-
  Shallow embedding of the Concurrent-Containers-Library (ccl) sources,
  restricted to single-threaded executions.  Each definition mirrors one
  function of the C++ sources under src/:

  - src/containers/stack.hpp      : sequential_stack and stack
  - src/containers/queue.hpp      : flat-combining queue (combiner, push, try_pop)
  - src/containers/data_pool.hpp  : data_pool (push, try_pop)
  - src/containers/vector.hpp     : double-buffered vector

  Pointers to heap-allocated values are modelled by the values themselves;
  deleting a node is modelled by dropping it.  Machine unsigned ints are
  modelled as Nat reduced mod 2 ^ 32 where the source relies on wraparound.
-/

namespace CCL

/-! ## Stack (src/containers/stack.hpp)

The chain of nodes reachable from the head pointer is modelled as a list,
head of the list = top of the stack.  A try_pop call receives a reference
variable; we model it by passing the variable's current value in and
returning the (possibly updated) value together with the boolean result. -/

namespace SeqStack

/-- sequential_stack::push: a new node whose next link is the current head
becomes the new head. -/
def push (v : α) (l : List α) : List α := v :: l

/-- sequential_stack::try_pop: if the head is null return false leaving the
reference variable untouched, otherwise move the head's data out and advance
the head to its next link. -/
def try_pop (out : α) : List α → (Bool × α) × List α
  | [] => ((false, out), [])
  | h :: t => ((true, h), t)

/-- sequential_stack::empty: observation of the head pointer. -/
def empty (l : List α) : Bool := l.isEmpty

end SeqStack

namespace CStack

/-- stack::push: allocate a node, set its next link to the loaded head and
CAS it in; in a single-threaded execution the first CAS succeeds. -/
def push (v : α) (l : List α) : List α := v :: l

/-- stack::try_pop: load the head; if null the CAS loop is skipped and false
is returned with the reference variable untouched; otherwise the CAS
replacing the head by its next link succeeds at once, the popped node's data
is moved out and the node is deleted. -/
def try_pop (out : α) : List α → (Bool × α) × List α
  | [] => ((false, out), [])
  | h :: t => ((true, h), t)

/-- stack::empty: observation of the head pointer. -/
def empty (l : List α) : Bool := l.isEmpty

end CStack

/-- One client call against a stack. -/
inductive StackOp (α : Type) where
  | push (v : α)
  | tryPop
  | isEmpty

/-- Observable outcome of one stack call: push returns nothing, try_pop
returns its boolean result together with the final value of the caller's
reference variable, empty returns its boolean. -/
inductive StackOut (α : Type) where
  | pushed
  | popped (ok : Bool) (out : α)
  | emptiness (b : Bool)
deriving DecidableEq

/-- Run a sequence of calls against sequential_stack, threading one caller
variable through the try_pop calls, and record every observation. -/
def runSeqStack (out : α) : List (StackOp α) → List α → List (StackOut α)
  | [], _ => []
  | .push v :: ops, l => .pushed :: runSeqStack out ops (SeqStack.push v l)
  | .tryPop :: ops, l =>
    let r := SeqStack.try_pop out l
    .popped r.1.1 r.1.2 :: runSeqStack r.1.2 ops r.2
  | .isEmpty :: ops, l => .emptiness (SeqStack.empty l) :: runSeqStack out ops l

/-- Run a sequence of calls against the concurrent stack (single-threaded
execution), threading one caller variable through the try_pop calls. -/
def runCStack (out : α) : List (StackOp α) → List α → List (StackOut α)
  | [], _ => []
  | .push v :: ops, l => .pushed :: runCStack out ops (CStack.push v l)
  | .tryPop :: ops, l =>
    let r := CStack.try_pop out l
    .popped r.1.1 r.1.2 :: runCStack r.1.2 ops r.2
  | .isEmpty :: ops, l => .emptiness (CStack.empty l) :: runCStack out ops l

/-- Push every value of a list, left to right, onto a concurrent stack. -/
def cstackPushes (l : List α) (vs : List α) : List α :=
  vs.foldl (fun l v => CStack.push v l) l

/-- Perform n try_pop calls, each with a fresh reference variable holding
out0, collecting the (result, reference variable) pairs. -/
def cstackPops (out0 : α) : Nat → List α → List (Bool × α) × List α
  | 0, l => ([], l)
  | n + 1, l =>
    let r := CStack.try_pop out0 l
    let rest := cstackPops out0 n r.2
    (r.1 :: rest.1, rest.2)

theorem cstackPushes_eq (vs : List α) : ∀ l, cstackPushes l vs = vs.reverse ++ l := by
  induction vs with
  | nil => intro l; simp [cstackPushes]
  | cons v vs ih =>
    intro l
    simp only [cstackPushes, List.foldl_cons, List.reverse_cons, List.append_assoc]
    simp only [cstackPushes, CStack.push] at ih ⊢
    rw [ih (v :: l)]
    simp

theorem cstackPops_all (out0 : α) :
    ∀ l : List α, cstackPops out0 (l.length + 1) l = (l.map (fun v => (true, v)) ++ [(false, out0)], []) := by
  intro l
  induction l with
  | nil => simp [cstackPops, CStack.try_pop]
  | cons h t ih =>
    show ((true, h) :: (cstackPops out0 (t.length + 1) t).1, (cstackPops out0 (t.length + 1) t).2)
        = ((h :: t).map (fun v => (true, v)) ++ [(false, out0)], [])
    rw [ih]
    simp

/-- Claim C3: single-threaded stack LIFO.  Pushing v1, ..., vn and then
performing n+1 try_pop calls yields the values in reverse order vn, ..., v1,
each pop succeeding, and the final extra try_pop returns false leaving the
caller's reference variable untouched and the stack still empty (no side
effect). -/
theorem stack_lifo_single_thread (α : Type) (vs : List α) (out0 : α) :
    cstackPops out0 (vs.length + 1) (cstackPushes [] vs)
      = (vs.reverse.map (fun v => (true, v)) ++ [(false, out0)], []) := by
  have h := cstackPushes_eq vs []
  rw [h, List.append_nil]
  have hlen : vs.reverse.length = vs.length := List.length_reverse vs
  calc cstackPops out0 (vs.length + 1) vs.reverse
      = cstackPops out0 (vs.reverse.length + 1) vs.reverse := by rw [hlen]
    _ = (vs.reverse.map (fun v => (true, v)) ++ [(false, out0)], []) := cstackPops_all out0 vs.reverse

/-- Claim C9: under single-threaded use the concurrent stack is
observationally equivalent to sequential_stack: every sequence of push,
try_pop and empty calls produces identical return values, identical
reference-variable contents and identical emptiness observations. -/
theorem stack_refinement_equiv (α : Type) (ops : List (StackOp α)) (out0 : α) :
    runCStack out0 ops [] = runSeqStack out0 ops [] := by
  suffices h : ∀ ops : List (StackOp α), ∀ (out : α) (l : List α),
      runCStack out ops l = runSeqStack out ops l from h ops out0 []
  intro ops
  induction ops with
  | nil => intro out l; rfl
  | cons op ops ih =>
    intro out l
    cases op with
    | push v => simp [runCStack, runSeqStack, CStack.push, SeqStack.push, ih]
    | tryPop =>
      cases l with
      | nil => simp [runCStack, runSeqStack, CStack.try_pop, SeqStack.try_pop, ih]
      | cons h t => simp [runCStack, runSeqStack, CStack.try_pop, SeqStack.try_pop, ih]
    | isEmpty => simp [runCStack, runSeqStack, CStack.empty, SeqStack.empty, ih]

/-! ## Queue (src/containers/queue.hpp)

The flat-combining queue has two layers of state: the FIFO chain of queue
nodes (a list, head first, pushes appended at the tail) and the publication
list of per-thread records.  Unsigned int counters are reduced mod 2 ^ 32. -/

/-- Modulus of the C++ unsigned int used for the pass counter and ages. -/
def UINT : Nat := 2 ^ 32

/-- Unsigned subtraction a - b on 32-bit unsigned ints (wraparound). -/
def usub (a b : Nat) : Nat := (a + (UINT - b % UINT)) % UINT

/-- MAXIMUM_RECORD_AGE from src/ccl.hpp. -/
def MAXIMUM_RECORD_AGE : Nat := 100

/-- queue::RequestType. -/
inductive RequestType where
  | PUSH
  | POP
  | RESPONSE_PUSH
  | RESPONSE_POP
  | RESPONSE_POP_FAIL
  | NULL_RESPONSE
deriving DecidableEq

/-- queue::publication_record: the request slot (kind, value), the age
stamp and the active flag.  The next link is implicit in the list holding
the records. -/
structure PubRecord (α : Type) where
  kind : RequestType
  value : α
  age : Nat
  active : Bool
deriving DecidableEq

/-- Decision taken by queue::combiner on a record whose kind is
NULL_RESPONSE: the record is kept iff its age does not lag the pass counter
by more than MAXIMUM_RECORD_AGE (unsigned comparison); non-null records are
always kept. -/
def recordKept (pass : Nat) (r : PubRecord α) : Bool :=
  if r.kind = .NULL_RESPONSE ∧ usub pass r.age > MAXIMUM_RECORD_AGE then false else true

/-- The body of queue::combiner for one publication record: stamp the age
and apply the request of a non-null record (PUSH appends a node at the tail
of the chain, POP removes the head or reports failure), or age out a null
record.  Returns the new chain, the updated record, and whether the record
stays linked. -/
def processRecord (pass : Nat) (chain : List α) (r : PubRecord α) :
    List α × PubRecord α × Bool :=
  match r.kind with
  | .PUSH => (chain ++ [r.value], { r with kind := .RESPONSE_PUSH, age := pass }, true)
  | .POP =>
    match chain with
    | h :: t => (t, { r with kind := .RESPONSE_POP, value := h, age := pass }, true)
    | [] => (chain, { r with kind := .RESPONSE_POP_FAIL, age := pass }, true)
  | .NULL_RESPONSE =>
    if usub pass r.age > MAXIMUM_RECORD_AGE then (chain, { r with active := false }, false)
    else (chain, r, true)
  | _ => (chain, { r with age := pass }, true)

/-- The traversal of queue::combiner over the publication list, head first,
threading the FIFO chain through; each record is returned together with its
linked flag. -/
def combinerAux (pass : Nat) : List α → List (PubRecord α) → List α × List (PubRecord α × Bool)
  | chain, [] => (chain, [])
  | chain, r :: rs =>
    let p := processRecord pass chain r
    let rest := combinerAux pass p.1 rs
    (rest.1, (p.2.1, p.2.2) :: rest.2)

/-- Whether some record is unlinked before the next linked active record;
in that case the splice past the stale previous pointer also drops any
bypassed inactive record in between. -/
def unlinkBeforeActive : List (PubRecord α × Bool) → Bool
  | [] => false
  | (r, linked) :: rest =>
    if linked then
      if r.active then false else unlinkBeforeActive rest
    else true

/-- The publication list that results from the in-place unlinking done by
queue::combiner.  The combiner splices a record out by redirecting the next
link of the last node it saw whose active flag was set (or the list head
when there was none); a record that stays linked while its active flag is
clear is therefore bypassed as well whenever a later record is unlinked
before the next active record. -/
def spliceFinal : List (PubRecord α × Bool) → List (PubRecord α)
  | [] => []
  | (r, linked) :: rest =>
    if linked then
      if r.active then r :: spliceFinal rest
      else if unlinkBeforeActive rest then spliceFinal rest
      else r :: spliceFinal rest
    else spliceFinal rest

/-- The whole queue state: the FIFO chain (head first), the publication
list (head first) and the combining pass counter. -/
structure QueueGlobal (α : Type) where
  chain : List α
  pubList : List (PubRecord α)
  passCounter : Nat

/-- queue::combiner: advance the pass counter, traverse the publication
list applying requests and aging out stale null records, and release the
lock. -/
def combiner (q : QueueGlobal α) : QueueGlobal α :=
  let pass := (q.passCounter + 1) % UINT
  let r := combinerAux pass q.chain q.pubList
  { chain := r.1, pubList := spliceFinal r.2, passCounter := pass }

theorem processRecord_linked (pass : Nat) (chain : List α) (r : PubRecord α) :
    (processRecord pass chain r).2.2 = recordKept pass r
      ∧ (processRecord pass chain r).2.1.active = (if recordKept pass r then r.active else false) := by
  cases hk : r.kind
  case PUSH => simp [processRecord, recordKept, hk]
  case POP => cases chain <;> simp [processRecord, recordKept, hk]
  case RESPONSE_PUSH => simp [processRecord, recordKept, hk]
  case RESPONSE_POP => simp [processRecord, recordKept, hk]
  case RESPONSE_POP_FAIL => simp [processRecord, recordKept, hk]
  case NULL_RESPONSE =>
    by_cases ha : usub pass r.age > MAXIMUM_RECORD_AGE <;>
      simp [processRecord, recordKept, hk, ha]

theorem combinerAux_spec (pass : Nat) (recs : List (PubRecord α)) :
    ∀ chain : List α,
      (combinerAux pass chain recs).2.map (fun p => p.2) = recs.map (fun r => recordKept pass r)
      ∧ ((∀ r ∈ recs, r.active = true) →
          (combinerAux pass chain recs).2.map (fun p => p.1.active)
              = recs.map (fun r => recordKept pass r)
          ∧ spliceFinal (combinerAux pass chain recs).2
              = ((combinerAux pass chain recs).2.filter (fun p => p.2)).map (fun p => p.1)) := by
  induction recs with
  | nil => intro chain; simp [combinerAux, spliceFinal]
  | cons r rs ih =>
    intro chain
    have hp := processRecord_linked pass chain r
    obtain ⟨ih1, ih2⟩ := ih (processRecord pass chain r).1
    constructor
    · simp [combinerAux, hp.1, ih1]
    · intro hact
      have hr : r.active = true := hact r (by simp)
      have hrest : ∀ x ∈ rs, x.active = true := fun x hx => hact x (by simp [hx])
      obtain ⟨ih2a, ih2b⟩ := ih2 hrest
      constructor
      · simp [combinerAux, hp.2, hr, ih2a]
      · by_cases hk : recordKept pass r
        · have hl : (processRecord pass chain r).2.2 = true := by rw [hp.1, hk]
          have hact1 : (processRecord pass chain r).2.1.active = true := by
            rw [hp.2, hk, if_pos rfl, hr]
          simp [combinerAux, spliceFinal, hl, hact1, ih2b]
        · have hl : (processRecord pass chain r).2.2 = false := by
            rw [hp.1]; simpa using hk
          simp [combinerAux, spliceFinal, hl, ih2b]

/-- Claim C5: during a combiner pass with new pass counter p, a publication
record whose kind is NULL_RESPONSE and whose age lags p by more than
MAXIMUM_RECORD_AGE (100) is unlinked and its active flag is cleared, while
null records within the threshold and records of any other kind remain
linked with their active flag set; the resulting publication list consists
exactly of the kept records in order.  The hypothesis states the protocol
invariant that linked records are active. -/
theorem combiner_aging_unlink (α : Type) (q : QueueGlobal α)
    (h : ∀ r ∈ q.pubList, r.active = true) :
    (combiner q).passCounter = (q.passCounter + 1) % UINT
    ∧ ((combinerAux (combiner q).passCounter q.chain q.pubList).2.map (fun p => p.2)
        = q.pubList.map (fun r => recordKept (combiner q).passCounter r))
    ∧ ((combinerAux (combiner q).passCounter q.chain q.pubList).2.map (fun p => p.1.active)
        = q.pubList.map (fun r => recordKept (combiner q).passCounter r))
    ∧ (combiner q).pubList
        = (((combinerAux (combiner q).passCounter q.chain q.pubList).2.filter
            (fun p => p.2)).map (fun p => p.1)) := by
  have hpc : (combiner q).passCounter = (q.passCounter + 1) % UINT := rfl
  obtain ⟨h1, h2⟩ := combinerAux_spec ((q.passCounter + 1) % UINT) q.pubList q.chain
  obtain ⟨h2a, h2b⟩ := h2 h
  refine ⟨hpc, ?_, ?_, ?_⟩
  · rw [hpc]; exact h1
  · rw [hpc]; exact h2a
  · rw [hpc]
    show spliceFinal (combinerAux ((q.passCounter + 1) % UINT) q.chain q.pubList).2 = _
    exact h2b

/-- Witness for combiner_aging_unlink: a queue whose publication list holds
one active null record of age 0 while the pass counter is at 200; the pass
unlinks it and clears its active flag, leaving an empty publication list. -/
theorem combiner_aging_unlink_witness :
    (combiner { chain := ([] : List Nat),
                pubList := [{ kind := .NULL_RESPONSE, value := 0, age := 0, active := true }],
                passCounter := 200 }).pubList = [] := by
  have h := combiner_aging_unlink Nat
    { chain := ([] : List Nat),
      pubList := [{ kind := .NULL_RESPONSE, value := 0, age := 0, active := true }],
      passCounter := 200 }
    (by intro r hr; simp at hr; rw [hr])
  rw [h.2.2.2]
  decide

/-! ### Single-threaded queue execution

Under a single thread the calling thread owns the only publication record.
queue::push and queue::try_pop write the request into the record via
add_request (linking it and setting it active on first use), then spin:
with no contention the combiner lock is free, so the caller runs the
combiner itself, which answers its own request; the caller then
acknowledges the response by resetting the kind to NULL_RESPONSE and, for
a pop, moves the response value out.  Since the record's kind is non-null
whenever the combiner runs, it is never aged out. -/

/-- Single-threaded queue state: the FIFO chain, the one thread's
publication record and the pass counter. -/
structure STQueue (α : Type) where
  chain : List α
  record : PubRecord α
  passCounter : Nat

/-- The state after constructing the queue and allocating the first
thread's publication record (age stamped with the pass counter, inactive,
request slot not yet filled in). -/
def stInit (α : Type) [Inhabited α] : STQueue α :=
  { chain := [], record := { kind := .NULL_RESPONSE, value := default, age := 0, active := false },
    passCounter := 0 }

/-- queue::push under a single thread: add_request stores (PUSH, v) in the
record and activates it, the caller becomes the combiner, and finally
acknowledges the RESPONSE_PUSH by resetting the kind. -/
def st_push (s : STQueue α) (v : α) : STQueue α :=
  let r0 : PubRecord α := { s.record with kind := .PUSH, value := v, active := true }
  let pass := (s.passCounter + 1) % UINT
  let p := processRecord pass s.chain r0
  { chain := p.1, record := { p.2.1 with kind := .NULL_RESPONSE }, passCounter := pass }

/-- queue::try_pop under a single thread: add_request stores (POP, T()) in
the record and activates it, the caller becomes the combiner, then reads
the response: RESPONSE_POP yields the moved-out value, RESPONSE_POP_FAIL
yields failure; either way the kind is reset to NULL_RESPONSE. -/
def st_tryPop [Inhabited α] (s : STQueue α) : Option α × STQueue α :=
  let r0 : PubRecord α := { s.record with kind := .POP, value := default, active := true }
  let pass := (s.passCounter + 1) % UINT
  let p := processRecord pass s.chain r0
  let s' : STQueue α :=
    { chain := p.1, record := { p.2.1 with kind := .NULL_RESPONSE }, passCounter := pass }
  if p.2.1.kind = .RESPONSE_POP then (some p.2.1.value, s') else (none, s')

/-- Push every value of a list in order. -/
def stPushes (s : STQueue α) : List α → STQueue α
  | [] => s
  | v :: vs => stPushes (st_push s v) vs

/-- Perform n try_pop calls, collecting each call's result. -/
def stPops [Inhabited α] (s : STQueue α) : Nat → List (Option α) × STQueue α
  | 0 => ([], s)
  | n + 1 =>
    let p := st_tryPop s
    let rest := stPops p.2 n
    (p.1 :: rest.1, rest.2)

theorem st_push_chain (s : STQueue α) (v : α) : (st_push s v).chain = s.chain ++ [v] := rfl

theorem stPushes_chain (vs : List α) : ∀ s : STQueue α, (stPushes s vs).chain = s.chain ++ vs := by
  induction vs with
  | nil => intro s; simp [stPushes]
  | cons v vs ih =>
    intro s
    show (stPushes (st_push s v) vs).chain = _
    rw [ih, st_push_chain, List.append_assoc]
    rfl

theorem st_tryPop_spec [Inhabited α] (s : STQueue α) :
    (st_tryPop s).1 = s.chain.head? ∧ (st_tryPop s).2.chain = s.chain.tail := by
  rcases hc : s.chain with _ | ⟨h, t⟩ <;>
    simp [st_tryPop, processRecord, hc]

theorem stPops_drain [Inhabited α] :
    ∀ (l : List α) (s : STQueue α), s.chain = l →
      (stPops s (l.length + 1)).1 = l.map some ++ [none] := by
  intro l
  induction l with
  | nil =>
    intro s hs
    obtain ⟨h1, _⟩ := st_tryPop_spec s
    simp [stPops, h1, hs]
  | cons h t ih =>
    intro s hs
    obtain ⟨h1, h2⟩ := st_tryPop_spec s
    show (st_tryPop s).1 :: (stPops (st_tryPop s).2 (t.length + 1)).1 = _
    rw [h1, hs, ih (st_tryPop s).2 (by rw [h2, hs]; rfl)]
    rfl

/-- Claim C1: single-threaded queue FIFO.  For every sequence of pushed
values v1, ..., vn followed by n+1 try_pop calls, the first n pops succeed
and yield v1, ..., vn in order and the final pop reports failure; in
particular push 1, push 2, push 3 followed by four try_pops yields
1, 2, 3, fail. -/
theorem queue_fifo_single_thread :
    (∀ (α : Type) [Inhabited α] (vs : List α),
      (stPops (stPushes (stInit α) vs) (vs.length + 1)).1 = vs.map some ++ [none])
    ∧ (stPops (stPushes (stInit Nat) [1, 2, 3]) 4).1 = [some 1, some 2, some 3, none] := by
  have main : ∀ (α : Type) [Inhabited α] (vs : List α),
      (stPops (stPushes (stInit α) vs) (vs.length + 1)).1 = vs.map some ++ [none] := by
    intro α _ vs
    exact stPops_drain vs (stPushes (stInit α) vs) (by rw [stPushes_chain]; rfl)
  exact ⟨main, by have h := main Nat [1, 2, 3]; simpa using h⟩

/-! ## Data pool (src/containers/data_pool.hpp)

A chain of blocks, newest first; each block is a fixed array of nodes.  A
node carries the two handoff flags (available_write and available_read,
true = flag set) and the stored data.  The node constructor leaves
available_write clear and sets available_read, so a fresh node is claimable
by a producer but not by a consumer. -/

/-- data_pool::node: the two atomic_flag states and the data slot. -/
structure PoolNode (α : Type) where
  aw : Bool
  ar : Bool
  data : α
deriving DecidableEq

/-- A freshly constructed node: available_write clear, available_read set,
data default-initialized. -/
def mkNode (α : Type) [Inhabited α] : PoolNode α :=
  { aw := false, ar := true, data := default }

/-- data_pool::pool constructor: a block of n fresh nodes. -/
def mkBlock (α : Type) [Inhabited α] (n : Nat) : List (PoolNode α) :=
  List.replicate n (mkNode α)

/-- INITIAL_SIZE from src/containers/data_pool.hpp. -/
def INITIAL_SIZE : Nat := 11

/-- The size of a block allocated from a head block of n slots:
old_head.size * GROWTH_RATE with GROWTH_RATE = 1.5, truncated to size_t. -/
def growSize (n : Nat) : Nat := n + n / 2

/-- The chain of pool blocks, head (newest) first. -/
abbrev PoolChain (α : Type) : Type := List (List (PoolNode α))

/-- The pool right after construction: one block of INITIAL_SIZE nodes. -/
def poolInit (α : Type) [Inhabited α] : PoolChain α := [mkBlock α INITIAL_SIZE]

/-- The scan of one block inside data_pool::push: the first node whose
available_write test_and_set finds the flag clear is claimed — its data is
stored and its available_read flag is cleared to publish. -/
def claimWriteNode (v : α) : List (PoolNode α) → Option (List (PoolNode α))
  | [] => none
  | n :: rest =>
    if n.aw = false then some ({ aw := true, ar := false, data := v } :: rest)
    else (claimWriteNode v rest).map (fun r => n :: r)

/-- The scan of the whole block chain inside data_pool::push, newest block
first. -/
def scanWrite (v : α) : PoolChain α → Option (PoolChain α)
  | [] => none
  | b :: bs =>
    match claimWriteNode v b with
    | some b' => some (b' :: bs)
    | none => (scanWrite v bs).map (fun r => b :: r)

/-- The size of the head block (the source reads old_head->size; the chain
is never empty). -/
def headSize (c : PoolChain α) : Nat := (c.headD []).length

/-- data_pool::push: scan the chain for a claimable node; if the scan finds
none, allocate a block of growSize (head block size), prepend it and try
again.  Fuel bounds the retries of the outer while(true) loop; one retry
always suffices when the new block is nonempty. -/
def poolPush [Inhabited α] (v : α) : Nat → PoolChain α → Option (PoolChain α)
  | 0, _ => none
  | fuel + 1, c =>
    match scanWrite v c with
    | some c' => some c'
    | none => poolPush v fuel (mkBlock α (growSize (headSize c)) :: c)

/-- The scan of one block inside data_pool::try_pop: the first node whose
available_read test_and_set finds the flag clear is claimed — its data is
copied out, the slot is overwritten with a default-initialized value and
available_write is cleared. -/
def claimReadNode [Inhabited α] : List (PoolNode α) → Option (α × List (PoolNode α))
  | [] => none
  | n :: rest =>
    if n.ar = false then some (n.data, { aw := false, ar := true, data := default } :: rest)
    else (claimReadNode rest).map (fun p => (p.1, n :: p.2))

/-- data_pool::try_pop: walk the chain looking for a readable node; return
false leaving the reference variable untouched when the whole chain is
scanned without a claim. -/
def poolTryPop [Inhabited α] : PoolChain α → Option α × PoolChain α
  | [] => (none, [])
  | b :: bs =>
    match claimReadNode b with
    | some p => (some p.1, p.2 :: bs)
    | none =>
      let r := poolTryPop bs
      (r.1, b :: r.2)

/-- Block sizes of the geometric sequence: INITIAL_SIZE grown k times. -/
def sizeSeq : Nat → Nat
  | 0 => INITIAL_SIZE
  | k + 1 => growSize (sizeSeq k)

/-- Expected list of block lengths for a chain of k blocks: newest block
first, so the sizes descend from sizeSeq (k - 1) down to sizeSeq 0. -/
def geomSizes (k : Nat) : List Nat :=
  ((List.range k).map sizeSeq).reverse

/-- Single-threaded reachability of a pool chain through construction,
push and try_pop. -/
inductive PoolReach (α : Type) [Inhabited α] : PoolChain α → Prop
  | init : PoolReach α (poolInit α)
  | push (c c' : PoolChain α) (v : α) (fuel : Nat) :
      PoolReach α c → poolPush v fuel c = some c' → PoolReach α c'
  | pop (c : PoolChain α) : PoolReach α c → PoolReach α (poolTryPop c).2

theorem claimWriteNode_lengths (v : α) :
    ∀ b b' : List (PoolNode α), claimWriteNode v b = some b' → b'.length = b.length := by
  intro b
  induction b with
  | nil => intro b' h; simp [claimWriteNode] at h
  | cons n rest ih =>
    intro b' h
    by_cases ha : n.aw = false
    · simp [claimWriteNode, ha] at h
      subst h; simp
    · simp [claimWriteNode, ha] at h
      obtain ⟨r, hr, hb'⟩ := h
      subst hb'
      simp [ih r hr]

theorem scanWrite_lengths (v : α) :
    ∀ c c' : PoolChain α, scanWrite v c = some c' →
      c'.map List.length = c.map List.length := by
  intro c
  induction c with
  | nil => intro c' h; simp [scanWrite] at h
  | cons b bs ih =>
    intro c' h
    rcases hb : claimWriteNode v b with _ | b'
    · simp [scanWrite, hb] at h
      obtain ⟨r, hr, hc'⟩ := h
      subst hc'
      simp [ih r hr]
    · simp [scanWrite, hb] at h
      subst h
      simp [claimWriteNode_lengths v b b' hb]

theorem claimReadNode_lengths [Inhabited α] :
    ∀ (b : List (PoolNode α)) p, claimReadNode b = some p → p.2.length = b.length := by
  intro b
  induction b with
  | nil => intro p h; simp [claimReadNode] at h
  | cons n rest ih =>
    intro p h
    by_cases ha : n.ar = false
    · simp [claimReadNode, ha] at h
      rw [← h]; simp
    · simp [claimReadNode, ha] at h
      obtain ⟨q, hq, hq1, hq2⟩ := h
      have := ih (q, hq) hq1
      rw [← hq2]
      simpa using this

theorem poolTryPop_lengths [Inhabited α] :
    ∀ c : PoolChain α, (poolTryPop c).2.map List.length = c.map List.length := by
  intro c
  induction c with
  | nil => simp [poolTryPop]
  | cons b bs ih =>
    rcases hb : claimReadNode (α := α) b with _ | p
    · simp [poolTryPop, hb, ih]
    · simp [poolTryPop, hb, claimReadNode_lengths b p hb]

theorem geomSizes_head (k : Nat) : (geomSizes (k + 1)).headD 0 = sizeSeq k := by
  simp [geomSizes, List.range_succ]

theorem sizeSeq_pos (k : Nat) : 0 < sizeSeq k := by
  induction k with
  | zero => simp [sizeSeq, INITIAL_SIZE]
  | succ k ih => simp only [sizeSeq, growSize]; omega

theorem geomSizes_succ (k : Nat) : geomSizes (k + 1) = sizeSeq k :: geomSizes k := by
  simp [geomSizes, List.range_succ]

theorem chain_headSize {c : PoolChain α} {k : Nat}
    (hc : c.map List.length = geomSizes (k + 1)) : headSize c = sizeSeq k := by
  have h0 : (c.map List.length).headD 0 = (geomSizes (k + 1)).headD 0 := by rw [hc]
  rw [geomSizes_head] at h0
  cases c with
  | nil => simp [geomSizes_succ] at hc
  | cons b bs => simpa [headSize] using h0

theorem scanWrite_fresh_head [Inhabited α] (v : α) (m : Nat) (c : PoolChain α) :
    scanWrite v (mkBlock α (m + 1) :: c)
      = some ((({ aw := true, ar := false, data := v } : PoolNode α)
          :: List.replicate m (mkNode α)) :: c) := by
  simp [scanWrite, mkBlock, List.replicate_succ, claimWriteNode, mkNode]

theorem poolPush_invariant [Inhabited α] (v : α) (fuel : Nat) (c c' : PoolChain α) (k : Nat)
    (hc : c.map List.length = geomSizes (k + 1)) (h : poolPush v fuel c = some c') :
    c'.map List.length = geomSizes (k + 1) ∨ c'.map List.length = geomSizes (k + 2) := by
  cases fuel with
  | zero => simp [poolPush] at h
  | succ fuel =>
    rcases hs : scanWrite v c with _ | c''
    · rw [show poolPush v (fuel + 1) c
            = poolPush v fuel (mkBlock α (growSize (headSize c)) :: c) by
          simp [poolPush, hs]] at h
      have hhead : headSize c = sizeSeq k := chain_headSize hc
      obtain ⟨m, hm⟩ : ∃ m, growSize (headSize c) = m + 1 := by
        have := sizeSeq_pos (k + 1)
        rw [show sizeSeq (k + 1) = growSize (headSize c) by rw [hhead]; rfl] at this
        exact ⟨growSize (headSize c) - 1, by omega⟩
      cases fuel with
      | zero => simp [poolPush] at h
      | succ fuel =>
        rw [show poolPush v (fuel + 1) (mkBlock α (growSize (headSize c)) :: c)
              = some ((({ aw := true, ar := false, data := v } : PoolNode α)
                  :: List.replicate m (mkNode α)) :: c) by
            rw [hm]
            simp [poolPush, scanWrite_fresh_head]] at h
        right
        rw [← Option.some_inj.mp h]
        rw [geomSizes_succ (k + 1), ← hc]
        have hsz : sizeSeq (k + 1) = m + 1 := by
          rw [show sizeSeq (k + 1) = growSize (sizeSeq k) from rfl, ← hhead, hm]
        simp [hsz]
    · rw [show poolPush v (fuel + 1) c = some c'' by simp [poolPush, hs]] at h
      left
      rw [← Option.some_inj.mp h]
      rw [scanWrite_lengths v c c'' hs, hc]

theorem geomSizes_length (k : Nat) : (geomSizes k).length = k := by
  simp [geomSizes]

theorem poolReach_inv [Inhabited α] (c : PoolChain α) (h : PoolReach α c) :
    c.map List.length = geomSizes c.length ∧ 0 < c.length := by
  induction h with
  | init =>
    constructor
    · simp [poolInit, mkBlock, geomSizes, List.range_succ, sizeSeq]
    · simp [poolInit]
  | push c c' v fuel _ hp ih =>
    obtain ⟨ih1, ih2⟩ := ih
    obtain ⟨k, hk⟩ : ∃ k, c.length = k + 1 := ⟨c.length - 1, by omega⟩
    rw [hk] at ih1
    rcases poolPush_invariant v fuel c c' k ih1 hp with h1 | h1
    · have hlen : c'.length = k + 1 := by
        have := congrArg List.length h1
        simpa [geomSizes_length] using this
      exact ⟨by rw [hlen]; exact h1, by omega⟩
    · have hlen : c'.length = k + 2 := by
        have := congrArg List.length h1
        simpa [geomSizes_length] using this
      exact ⟨by rw [hlen]; exact h1, by omega⟩
  | pop c _ ih =>
    obtain ⟨ih1, ih2⟩ := ih
    have hmap := poolTryPop_lengths (α := α) c
    have hlen : (poolTryPop c).2.length = c.length := by
      have := congrArg List.length hmap
      simpa using this
    exact ⟨by rw [hmap, hlen]; exact ih1, by omega⟩

/-- Claim C7: data-pool growth.  The initial head block has 11 slots; in
every reachable chain the block sizes, newest first, are the geometric
sequence obtained by repeatedly applying size -> size + size / 2 (the
truncation of size * 1.5) to 11; and whenever push scans the whole chain
without claiming a slot, it allocates exactly one new block of size
growSize (head block size) and prepends it, leaving every existing block
untouched as the tail of the new chain, so the chain only grows. -/
theorem data_pool_growth (α : Type) [Inhabited α] (c : PoolChain α) (h : PoolReach α c) :
    headSize (poolInit α) = 11
    ∧ c.map List.length = geomSizes c.length
    ∧ 0 < c.length
    ∧ ∀ v, scanWrite v c = none →
        ∃ b, poolPush v 2 c = some (b :: c) ∧ b.length = growSize (headSize c) := by
  obtain ⟨h1, h2⟩ := poolReach_inv c h
  refine ⟨by simp [poolInit, headSize, mkBlock, INITIAL_SIZE], h1, h2, ?_⟩
  intro v hs
  obtain ⟨k, hk⟩ : ∃ k, c.length = k + 1 := ⟨c.length - 1, by omega⟩
  have hc : c.map List.length = geomSizes (k + 1) := by rw [← hk]; exact h1
  have hhead : headSize c = sizeSeq k := chain_headSize hc
  obtain ⟨m, hm⟩ : ∃ m, growSize (headSize c) = m + 1 := by
    have := sizeSeq_pos (k + 1)
    rw [show sizeSeq (k + 1) = growSize (sizeSeq k) from rfl, ← hhead] at this
    exact ⟨growSize (headSize c) - 1, by omega⟩
  refine ⟨({ aw := true, ar := false, data := v } : PoolNode α) :: List.replicate m (mkNode α),
    ?_, by simp [hm]⟩
  rw [show poolPush v 2 c = poolPush v 1 (mkBlock α (growSize (headSize c)) :: c) by
    simp [poolPush, hs]]
  rw [hm]
  simp [poolPush, scanWrite_fresh_head]

/-- Witness for data_pool_growth at the freshly constructed pool. -/
theorem data_pool_growth_witness :
    (poolInit Nat).map List.length = geomSizes (poolInit Nat).length :=
  (data_pool_growth Nat (poolInit Nat) (PoolReach.init)).2.1

/-- The chain obtained by pushing 10, 20 and 30 into a fresh pool. -/
def poolScenario : Option (PoolChain Nat) :=
  (poolPush 10 2 (poolInit Nat)).bind (fun c1 =>
    (poolPush 20 2 c1).bind (fun c2 => poolPush 30 2 c2))

/-- Claim C8: data-pool scenario.  After push 10, push 20, push 30 the
three following try_pop calls all succeed and the multiset of values
obtained is exactly 10, 20, 30 (nothing lost or duplicated); the fourth
try_pop fails; and each successful pop overwrites the claimed slot with a
freshly default-initialized node, so after the three pops the chain is
back to its initial state. -/
theorem data_pool_scenario :
    ∃ c, poolScenario = some c ∧
      ((poolTryPop c).1.isSome = true)
      ∧ ((poolTryPop (poolTryPop c).2).1.isSome = true)
      ∧ ((poolTryPop (poolTryPop (poolTryPop c).2).2).1.isSome = true)
      ∧ ([(poolTryPop c).1, (poolTryPop (poolTryPop c).2).1,
          (poolTryPop (poolTryPop (poolTryPop c).2).2).1].filterMap id).Perm [10, 20, 30]
      ∧ (poolTryPop (poolTryPop (poolTryPop (poolTryPop c).2).2).2).1 = none
      ∧ (((poolTryPop c).2.headD []).getD 0 (mkNode Nat) = mkNode Nat)
      ∧ (((poolTryPop (poolTryPop c).2).2.headD []).getD 1 (mkNode Nat) = mkNode Nat)
      ∧ (poolTryPop (poolTryPop (poolTryPop c).2).2).2 = poolInit Nat := by
  refine ⟨_, rfl, ?_⟩
  decide

/-! ## Indexed sequence (src/containers/vector.hpp)

The double-buffered vector.  An array_container owns an array of element
pointers plus a logical size and a capacity; we model the array as a list
of element values of length capacity, slots beyond the portion ever written
holding a default value (the C++ array holds garbage there; no operation
reads them).  The element pointers shared between the two containers are
modelled by the element values; the entries_to_delete stack holds the
values parked by erasing writers, and clean_old_entries drops them.
All writers run under the write mutex, so single-threaded execution is the
general case for the writer side. -/

section Vector

variable {α : Type} [Inhabited α]

/-- vector::array_container. -/
structure ArrayContainer (α : Type) where
  arr : List α
  size : Nat
  capacity : Nat
deriving DecidableEq

/-- The copy loop pattern target[i] = src[i] for i in [start, stop). -/
def copySeg [Inhabited α] (target src : List α) (start stop : Nat) : List α :=
  (List.range' start (stop - start)).foldl (fun t i => t.set i (src.getD i default)) target

/-- The loop of resize_array_for_insert on a freshly allocated target:
target[i] = src[i-1] for i in [start, stop), reading the old array. -/
def copyShiftSeg [Inhabited α] (target src : List α) (start stop : Nat) : List α :=
  (List.range' start (stop - start)).foldl (fun t i => t.set i (src.getD (i - 1) default)) target

/-- The same loop when the target aliases the source array (the in-place
branch of resize_array_for_insert): each read sees earlier writes of the
same loop. -/
def shiftRightInPlace [Inhabited α] (a : List α) (start stop : Nat) : List α :=
  (List.range' start (stop - start)).foldl (fun t i => t.set i (t.getD (i - 1) default)) a

/-- The left-shift loop of vector::erase, in place on the write array:
arr[i] = arr[i+1] for i in [position, array_size - 1). -/
def shiftLeftInPlace [Inhabited α] (a : List α) (start stop : Nat) : List α :=
  (List.range' start (stop - start)).foldl (fun t i => t.set i (t.getD (i + 1) default)) a

/-- INITIAL_VECTOR_SIZE from src/containers/vector.hpp. -/
def INITIAL_VECTOR_SIZE : Nat := 7

/-- vector::resize_array: if the capacity already admits the requested
size, only the size field changes; otherwise a new array of capacity
new_minimum_size * 1.5 (truncated) is allocated, old contents optionally
copied over, and the old array deallocated. -/
def resize_array [Inhabited α] (c : ArrayContainer α) (new_minimum_size : Nat)
    (copy_contents : Bool) : ArrayContainer α :=
  if new_minimum_size ≤ c.capacity then { c with size := new_minimum_size }
  else
    let new_array_size := new_minimum_size + new_minimum_size / 2
    let base := List.replicate new_array_size (default : α)
    let new_array := if copy_contents then copySeg base c.arr 0 c.size else base
    { arr := new_array, size := new_minimum_size, capacity := new_array_size }

/-- vector::resize_array_for_insert: grow the size by one; if the capacity
suffices the shift loop runs in place on the array itself (each iteration
reading the array as already modified by the previous one), otherwise a
larger array is allocated, the prefix below the insert position copied,
and the shift loop reads the old array; finally the new value is stored at
the insert position. -/
def resize_array_for_insert [Inhabited α] (c : ArrayContainer α) (position : Nat)
    (insert_value : α) : ArrayContainer α :=
  let new_array_size := c.size + 1
  if new_array_size ≤ c.capacity then
    let shifted := shiftRightInPlace c.arr (position + 1) new_array_size
    { c with arr := shifted.set position insert_value, size := new_array_size }
  else
    let new_array_capacity := new_array_size + new_array_size / 2
    let t0 := copySeg (List.replicate new_array_capacity (default : α)) c.arr 0 position
    let t1 := copyShiftSeg t0 c.arr (position + 1) new_array_size
    { arr := t1.set position insert_value, size := new_array_size,
      capacity := new_array_capacity }

/-- The whole vector state: the reader container, the writer container and
the entries_to_delete stack. -/
structure VecState (α : Type) where
  readC : ArrayContainer α
  writeC : ArrayContainer α
  entries_to_delete : List α
deriving DecidableEq

/-- vector::vector: both containers start empty with capacity
INITIAL_VECTOR_SIZE. -/
def vecInit (α : Type) [Inhabited α] : VecState α :=
  { readC := { arr := List.replicate INITIAL_VECTOR_SIZE default, size := 0,
               capacity := INITIAL_VECTOR_SIZE },
    writeC := { arr := List.replicate INITIAL_VECTOR_SIZE default, size := 0,
                capacity := INITIAL_VECTOR_SIZE },
    entries_to_delete := [] }

/-- vector::update_read_array: resize the outdated read container to the
write container's size without copying, copy the write container's
pointers over, swap the two container roles, wait for readers to drain,
delete everything parked on entries_to_delete (clean_old_entries) and
drain again. -/
def update_read_array [Inhabited α] (s : VecState α) : VecState α :=
  let invalid := resize_array s.readC s.writeC.size false
  let synced := { invalid with arr := copySeg invalid.arr s.writeC.arr 0 s.writeC.size }
  { readC := s.writeC, writeC := synced, entries_to_delete := [] }

/-- vector::push_back: grow the write container by one (copying on
reallocation), store the new element at the last slot, publish. -/
def push_back [Inhabited α] (s : VecState α) (value : α) : VecState α :=
  let w := s.writeC
  let new_array_size := w.size + 1
  let w1 := resize_array w new_array_size true
  update_read_array { s with writeC := { w1 with arr := w1.arr.set (new_array_size - 1) value } }

/-- vector::try_pop_back: fail on an empty sequence; otherwise park the
last pointer on entries_to_delete, shrink the size by one and publish. -/
def try_pop_back [Inhabited α] (s : VecState α) : Bool × VecState α :=
  let w := s.writeC
  if 0 < w.size then
    (true, update_read_array
      { s with writeC := { w with size := w.size - 1 },
               entries_to_delete := w.arr.getD (w.size - 1) default :: s.entries_to_delete })
  else (false, s)

/-- vector::try_insert: fail when the position is not below the current
size; otherwise insert via resize_array_for_insert and publish. -/
def try_insert [Inhabited α] (s : VecState α) (position : Nat) (value : α) :
    Bool × VecState α :=
  if s.writeC.size ≤ position then (false, s)
  else (true, update_read_array
    { s with writeC := resize_array_for_insert s.writeC position value })

/-- vector::erase (private helper): park the pointer at the position on
entries_to_delete, shift the remaining pointers left, shrink the size and
publish. -/
def eraseAt [Inhabited α] (s : VecState α) (position array_size : Nat) : VecState α :=
  let w := s.writeC
  update_read_array
    { s with writeC := { w with arr := shiftLeftInPlace w.arr position (array_size - 1),
                                size := array_size - 1 },
             entries_to_delete := w.arr.getD position default :: s.entries_to_delete }

/-- vector::try_erase: fail when the position is not below the current
size, otherwise erase. -/
def try_erase [Inhabited α] (s : VecState α) (position : Nat) : Bool × VecState α :=
  let array_size := s.writeC.size
  if array_size ≤ position then (false, s)
  else (true, eraseAt s position array_size)

/-- Modelled from the spec: vector::test_and_erase as the spec and the
function's own doc comment describe it.  What the source actually writes
(vector.hpp line 392, value != write_container_pointer->array[position])
compares the element value against the stored element pointer, T against
T*, which is ill-formed for ordinary element types such as int — the
function does not compile when instantiated, so the equality test the
spec describes is missing from the code and is modelled here, from the
spec, as equality on the pointed-to value.  The range check and the
erase path follow the source. -/
def test_and_erase [Inhabited α] [DecidableEq α] (s : VecState α) (position : Nat)
    (value : α) : Bool × VecState α :=
  let array_size := s.writeC.size
  if array_size ≤ position then (false, s)
  else if value ≠ s.writeC.arr.getD position default then (false, s)
  else (true, eraseAt s position array_size)

/-- vector::size: the read container's size field. -/
def vsize (s : VecState α) : Nat := s.readC.size

/-- The body of the CAS loop in vector::try_at: test the index against the
reading container's size and, within bounds, read the element pointer (here
the element value). -/
def try_at_body [Inhabited α] (reading_container : ArrayContainer α) (index : Nat) :
    Bool × α :=
  if index < reading_container.size then (true, reading_container.arr.getD index default)
  else (false, default)

/-- The do-while CAS loop of vector::try_at: execute the body, then
compare_exchange the read container pointer against the snapshot loaded
before the body (storing back the read container pointer itself); on
mismatch the snapshot is refreshed and the body repeats.  The extra Nat
counts executed iterations; fuel bounds the loop. -/
def try_at_loop [Inhabited α] [DecidableEq α] (read_container : ArrayContainer α)
    (index : Nat) : Nat → ArrayContainer α → Option (Bool × α × Nat)
  | 0, _ => none
  | fuel + 1, reading_container =>
    let br := try_at_body reading_container index
    if reading_container = read_container then some (br.1, br.2, 1)
    else
      match try_at_loop read_container index fuel read_container with
      | some p => some (p.1, p.2.1, p.2.2 + 1)
      | none => none

/-- vector::try_at: run the CAS loop against the read container (in a
single-threaded execution the snapshot equals the read container, so one
iteration suffices); on a successful read dereference the pointer into the
caller's reference variable, otherwise leave the variable untouched. -/
def try_at [Inhabited α] [DecidableEq α] (s : VecState α) (index : Nat) (value : α) :
    Bool × α :=
  match try_at_loop s.readC index 1 s.readC with
  | some p => if p.1 then (true, p.2.1) else (false, value)
  | none => (false, value)

theorem resize_array_size (c : ArrayContainer α) (m : Nat) (b : Bool) :
    (resize_array c m b).size = m := by
  unfold resize_array
  split <;> rfl

theorem resize_array_for_insert_size (c : ArrayContainer α) (p : Nat) (v : α) :
    (resize_array_for_insert c p v).size = c.size + 1 := by
  unfold resize_array_for_insert
  by_cases h : c.size + 1 ≤ c.capacity <;> simp [h]

theorem update_read_array_readC (s : VecState α) :
    (update_read_array s).readC = s.writeC := rfl

theorem update_read_array_writeC_size (s : VecState α) :
    (update_read_array s).writeC.size = s.writeC.size := by
  show (resize_array s.readC s.writeC.size false).size = s.writeC.size
  exact resize_array_size s.readC s.writeC.size false

/-- Claim C6: error handling of the indexed sequence.  The try_insert,
try_pop_back and push_back clauses are proved against the code:
try_insert fails exactly when the position is not below the writer size
and leaves the state unchanged in that case, and on success the sequence
grows by one (so the state does change); try_pop_back fails exactly on an
empty sequence, without side effect; push_back is total and always grows
the sequence by one.  The test_and_erase clauses — failure exactly when
the position is out of range or the stored element differs from the value
provided, without side effect, and erasure (size shrinking by one) on
success — hold only of the spec-modelled test_and_erase: the comparison
they describe is not implemented by the source, whose value-against-
pointer comparison is ill-formed for ordinary element types (the code
bug recorded for this claim). -/
theorem vector_error_handling (α : Type) [Inhabited α] [DecidableEq α]
    (s : VecState α) (i : Nat) (v : α) :
    ((try_insert s i v).1 = false ↔ s.writeC.size ≤ i)
    ∧ ((try_insert s i v).1 = false → (try_insert s i v).2 = s)
    ∧ ((try_insert s i v).1 = true → vsize (try_insert s i v).2 = s.writeC.size + 1)
    ∧ ((try_pop_back s).1 = false ↔ s.writeC.size = 0)
    ∧ ((try_pop_back s).1 = false → (try_pop_back s).2 = s)
    ∧ ((test_and_erase s i v).1 = false
        ↔ (s.writeC.size ≤ i ∨ v ≠ s.writeC.arr.getD i default))
    ∧ ((test_and_erase s i v).1 = false → (test_and_erase s i v).2 = s)
    ∧ ((test_and_erase s i v).1 = true
        → vsize (test_and_erase s i v).2 = s.writeC.size - 1)
    ∧ vsize (push_back s v) = s.writeC.size + 1 := by
  refine ⟨?_, ?_, ?_, ?_, ?_, ?_, ?_, ?_, ?_⟩
  · by_cases h : s.writeC.size ≤ i <;> simp [try_insert, h]
  · by_cases h : s.writeC.size ≤ i <;> simp [try_insert, h]
  · by_cases h : s.writeC.size ≤ i <;>
      simp [try_insert, h, vsize, update_read_array_readC, resize_array_for_insert_size]
  · by_cases h : 0 < s.writeC.size <;> simp [try_pop_back, h] <;> omega
  · by_cases h : 0 < s.writeC.size <;> simp [try_pop_back, h]
  · by_cases h1 : s.writeC.size ≤ i
    · simp [test_and_erase, h1]
    · by_cases h2 : v = s.writeC.arr.getD i default <;>
        · simp only [List.getD_eq_getElem?_getD] at h2
          simp [test_and_erase, h1, h2]
  · by_cases h1 : s.writeC.size ≤ i
    · simp [test_and_erase, h1]
    · by_cases h2 : v = s.writeC.arr.getD i default <;>
        · simp only [List.getD_eq_getElem?_getD] at h2
          simp [test_and_erase, h1, h2]
  · by_cases h1 : s.writeC.size ≤ i
    · simp [test_and_erase, h1]
    · by_cases h2 : v = s.writeC.arr.getD i default <;>
        · simp only [List.getD_eq_getElem?_getD] at h2
          simp [test_and_erase, h1, h2, eraseAt, vsize, update_read_array_readC]
  · simp [push_back, vsize, update_read_array_readC, resize_array_size]

/-- Witness for vector_error_handling on the freshly constructed vector:
try_insert at position 0, try_pop_back and test_and_erase all fail on the
empty sequence and leave the state unchanged. -/
theorem vector_error_handling_witness :
    (try_insert (vecInit Nat) 0 5).2 = vecInit Nat
    ∧ (try_pop_back (vecInit Nat)).2 = vecInit Nat
    ∧ (test_and_erase (vecInit Nat) 0 5).2 = vecInit Nat := by
  have h := vector_error_handling Nat (vecInit Nat) 0 5
  exact ⟨h.2.1 (by decide), h.2.2.2.2.1 (by decide), h.2.2.2.2.2.2.1 (by decide)⟩

/-- Claim C10: when try_at reports failure the caller's reference variable
is untouched.  Whenever the index is not below the reader container's
size, try_at returns false and the out-parameter value exactly as it was
passed in. -/
theorem try_at_failure_frame (α : Type) [Inhabited α] [DecidableEq α]
    (s : VecState α) (index : Nat) (out : α) (h : ¬ index < s.readC.size) :
    try_at s index out = (false, out) := by
  simp [try_at, try_at_loop, try_at_body, h]

/-- Witness for try_at_failure_frame: reading index 0 of a fresh vector
fails and hands back the reference value 7. -/
theorem try_at_failure_frame_witness : try_at (vecInit Nat) 0 7 = (false, 7) :=
  try_at_failure_frame Nat (vecInit Nat) 0 7 (by decide)

/-- Claim C4: the compare-and-swap ending the retry loop of try_at
compares the reader container snapshot against the reader container
itself, so (single-threaded, where nothing intervenes between the load
and the CAS) the comparison always succeeds and the loop body executes
exactly once, for every index, every container and any positive fuel. -/
theorem try_at_loop_single_iteration (α : Type) [Inhabited α] [DecidableEq α]
    (c : ArrayContainer α) (index fuel : Nat) :
    try_at_loop c index (fuel + 1) c
      = some ((try_at_body c index).1, (try_at_body c index).2, 1) := by
  simp [try_at_loop]

/-- The vector after push_back 1, push_back 2, push_back 3. -/
def vecScenario3 : VecState Nat :=
  push_back (push_back (push_back (vecInit Nat) 1) 2) 3

/-- Claim C2 evaluated on the code: push_back 1, 2, 3 then try_insert(1, 9)
succeeds, and try_at yields 1, 9, 2 at indices 0, 1, 2 — but at index 3 it
yields 2, not the 3 the claim (and the shifting intent documented in the
source) requires: the in-place branch of resize_array_for_insert copies
ascending, so every slot beyond the insert position receives the element
that sat at the insert position.  The test_and_erase steps of the claimed
scenario are not evaluated here: the comparison the source writes for
test_and_erase is ill-formed for int elements, so the code gives those
steps no behavior (see the spec-modelled test_and_erase above). -/
theorem vector_insert_scenario_eval :
    (try_insert vecScenario3 1 9).1 = true
    ∧ try_at (try_insert vecScenario3 1 9).2 0 99 = (true, 1)
    ∧ try_at (try_insert vecScenario3 1 9).2 1 99 = (true, 9)
    ∧ try_at (try_insert vecScenario3 1 9).2 2 99 = (true, 2)
    ∧ try_at (try_insert vecScenario3 1 9).2 3 99 = (true, 2)
    ∧ vsize (try_insert vecScenario3 1 9).2 = 4 := by
  decide

end Vector

end CCL
